import Mathlib

/-!
Verification development for the ALS ingestion core
(`src/als/model.py` and `src/als/io/input.py`).

The Python code is shallowly embedded: pure computations become Lean
functions; stateful objects become explicit state records with pure
transition functions; Python exceptions become an `Except` layer with an
explicit exception type; the `assert` statements of the RAW reader raise
`assertionError`, which the surrounding `try` blocks do not catch.
-/

namespace ALS

/-! ### Python `str` primitives

Python strings are sequences of code points; they are embedded as
`List Char`.  `str.startswith`, `str.strip` and `str.lower` become the
functions below.
-/

/-- `s.startswith(p)`. -/
def py_startswith : List Char → List Char → Bool
  | _, [] => true
  | [], _ :: _ => false
  | c :: s, p :: ps => c = p && py_startswith s ps

/-- `s.strip()`: remove leading and trailing whitespace. -/
def py_strip (s : List Char) : List Char :=
  ((s.dropWhile Char.isWhitespace).reverse.dropWhile Char.isWhitespace).reverse

/-- `s.lower()`. -/
def py_lower (s : List Char) : List Char :=
  s.map Char.toLower

/-! ## Image entity (`als.model.Image`)

`Image` owns a numpy array; we embed only the array's shape (a list of
axis extents), since every property under study (`ndim`, `dimensions`,
`width`, `height`, `needs_debayering`, `is_color`) depends on the shape
alone.  `bayer_pattern` is `None` or a string; `origin` and
`destination` default to `"UNDEFINED"`.
-/

structure PyImage where
  shape : List Nat
  bayer_pattern : Option String
  origin : String
  destination : String
deriving Repr, DecidableEq

/-- `numpy.ndarray.ndim`: the number of axes. -/
def PyImage.ndim (img : PyImage) : Nat :=
  img.shape.length

/-- Python `min` over a non-empty list (`min([])` raises; the `0` default
is never reached under the rank hypotheses used below). -/
def list_min : List Nat → Nat
  | [] => 0
  | x :: xs => xs.foldl Nat.min x

/-- Python `max` over a non-empty list. -/
def list_max : List Nat → Nat
  | [] => 0
  | x :: xs => xs.foldl Nat.max x

/-- `Image.dimensions`: the shape for rank-2 data, otherwise the shape
with the first occurrence of its minimum removed
(`dimensions.remove(min(dimensions))`). -/
def PyImage.dimensions (img : PyImage) : List Nat :=
  if img.ndim = 2 then img.shape
  else img.shape.erase (list_min img.shape)

/-- `Image.width`: `max(self.dimensions)`. -/
def PyImage.width (img : PyImage) : Nat :=
  list_max img.dimensions

/-- `Image.height`: `min(self.dimensions)`. -/
def PyImage.height (img : PyImage) : Nat :=
  list_min img.dimensions

/-- `Image.needs_debayering`: `self._bayer_pattern is not None and
self.data.ndim < 3`. -/
def PyImage.needs_debayering (img : PyImage) : Bool :=
  img.bayer_pattern.isSome && img.ndim < 3

/-- `Image.is_color`: `self._data.ndim > 2`. -/
def PyImage.is_color (img : PyImage) : Bool :=
  img.ndim > 2

/-! ## Bayer canonicalization (`als.io.input._read_raw_image`, lines 245-257)

```python
assert len(indices) == len(color_desc)
bayer_pattern = ""
for i in range(len(indices)):
    assert indices[i] < len(indices)
    bayer_pattern += color_desc[indices[i]]
```

A failed `assert` raises `AssertionError`; in the embedding the builder
returns `none` on assertion failure and the caller turns that into an
uncaught `assertionError` exception.
-/

/-- The loop body: for each index, check the bound assertion against
`len(indices)` and read `color_desc[indices[i]]`. -/
def bayer_canonical_go (bound : Nat) (colors : List Char) : List Nat → Option (List Char)
  | [] => some []
  | idx :: rest =>
    if idx < bound then
      match colors.get? idx, bayer_canonical_go bound colors rest with
      | some c, some cs => some (c :: cs)
      | _, _ => none
    else none

/-- The canonicalization algorithm of `_read_raw_image`: `none` models an
`AssertionError` escaping the loop. -/
def bayer_canonical (indices : List Nat) (colors : List Char) : Option (List Char) :=
  if indices.length = colors.length then
    bayer_canonical_go indices.length colors indices
  else none

/-! ## SignalingQueue (`als.model.SignalingQueue`)

A `queue.Queue` subclass: `put`/`put_nowait` append and then emit
`item_pushed_signal(self.qsize())`; `get`/`get_nowait` pop the front and
then emit `item_popped_signal(self.qsize())`.  The queue state is the
list of items, front first; `qsize` is its length.  A `get_nowait` on an
empty queue raises `queue.Empty` before any signal is emitted: no item,
no event.
-/

inductive QEvent where
  | pushed (size : Nat)
  | popped (size : Nat)
deriving Repr, DecidableEq

inductive QOp (α : Type) where
  | put (x : α)
  | getNowait
deriving Repr, DecidableEq

/-- `SignalingQueue.qsize`. -/
def qsize (q : List α) : Nat := q.length

/-- `SignalingQueue.put`: enqueue at the back, then emit
`item_pushed_signal(self.qsize())`. -/
def q_put (q : List α) (x : α) : List α × QEvent :=
  let q' := q ++ [x]
  (q', QEvent.pushed (qsize q'))

/-- `SignalingQueue.get_nowait`: dequeue the front and emit
`item_popped_signal(self.qsize())`, or raise `Empty` (here: `none`). -/
def q_get : List α → Option (α × List α × QEvent)
  | [] => none
  | x :: rest => some (x, rest, QEvent.popped (qsize rest))

/-- One observed step of a queue operation: the queue before and after,
the signals emitted by the operation, and the item it returned. -/
structure QStep (α : Type) where
  pre : List α
  op : QOp α
  post : List α
  events : List QEvent
  got : Option α
deriving Repr, DecidableEq

/-- Apply one queue operation, recording its observable step. -/
def apply_op (q : List α) : QOp α → QStep α
  | QOp.put x =>
    let (q', e) := q_put q x
    ⟨q, QOp.put x, q', [e], none⟩
  | QOp.getNowait =>
    match q_get q with
    | none => ⟨q, QOp.getNowait, q, [], none⟩
    | some (x, q', e) => ⟨q, QOp.getNowait, q', [e], some x⟩

/-- Run a sequence of queue operations, producing the step trace. -/
def run_ops (q : List α) : List (QOp α) → List (QStep α)
  | [] => []
  | op :: rest =>
    let st := apply_op q op
    st :: run_ops st.post rest

/-- The queue contents after running `ops` from `q`. -/
def run_final (q : List α) (ops : List (QOp α)) : List α :=
  ops.foldl (fun s op => (apply_op s op).post) q

/-- The values enqueued by a sequence of operations, in order. -/
def put_values : List (QOp α) → List α
  | [] => []
  | QOp.put x :: rest => x :: put_values rest
  | QOp.getNowait :: rest => put_values rest

/-- The values returned by the dequeues of a trace, in order. -/
def got_values (trace : List (QStep α)) : List α :=
  trace.filterMap (fun st => st.got)

/-- The notification contract of a single step: a `put` emits exactly one
`pushed` signal carrying the new size; a successful `get` emits exactly
one `popped` signal carrying the new size; a failed `get` emits
nothing. -/
def step_notification_spec (st : QStep α) : Prop :=
  ((∃ x, st.op = QOp.put x) →
      st.events = [QEvent.pushed (qsize st.post)]
      ∧ qsize st.post = qsize st.pre + 1 ∧ st.got = none)
  ∧ (st.op = QOp.getNowait → st.pre ≠ [] →
      st.events = [QEvent.popped (qsize st.post)]
      ∧ qsize st.pre = qsize st.post + 1 ∧ st.got = st.pre.head?)
  ∧ (st.op = QOp.getNowait → st.pre = [] →
      st.events = [] ∧ st.got = none ∧ st.post = st.pre)

/-! ## Session flags (`als.model.DataStore`)

`DataStore.__init__` sets `_session_is_started = False`,
`_session_is_stopped = True`, `_session_is_paused = False`; the three
`record_session_*` methods overwrite all three flags unconditionally.
-/

structure SessionFlags where
  session_is_started : Bool
  session_is_stopped : Bool
  session_is_paused : Bool
deriving Repr, DecidableEq

/-- The flags set by `DataStore.__init__`. -/
def initFlags : SessionFlags := ⟨false, true, false⟩

inductive SessionOp where
  | start
  | stop
  | pause
deriving Repr, DecidableEq

/-- `record_session_start` / `record_session_stop` /
`record_session_pause`: each overwrites the three flags with no guard. -/
def record_session : SessionOp → SessionFlags → SessionFlags
  | SessionOp.start, _ => ⟨true, false, false⟩
  | SessionOp.stop, _ => ⟨false, true, false⟩
  | SessionOp.pause, _ => ⟨false, false, true⟩

/-- Run a sequence of transition calls from the initial store state. -/
def run_session (ops : List SessionOp) : SessionFlags :=
  ops.foldl (fun s op => record_session op s) initFlags

/-- The flag combination written by each transition call. -/
def flags_for : SessionOp → SessionFlags
  | SessionOp.start => ⟨true, false, false⟩
  | SessionOp.stop => ⟨false, true, false⟩
  | SessionOp.pause => ⟨false, false, true⟩

/-- Exactly one of the three predicates holds. -/
def exactly_one (s : SessionFlags) : Prop :=
  (s.session_is_started = true ∧ s.session_is_stopped = false ∧ s.session_is_paused = false)
  ∨ (s.session_is_started = false ∧ s.session_is_stopped = true ∧ s.session_is_paused = false)
  ∨ (s.session_is_started = false ∧ s.session_is_stopped = false ∧ s.session_is_paused = true)

/-! ## Stacking mode (`als.model.DataStore.stacking_mode` setter) -/

def STACKING_MODE_SUM : List Char := "Sum".data

def STACKING_MODE_MEAN : List Char := "Mean".data

/-- The setter: `if text.strip() in [STACKING_MODE_MEAN,
STACKING_MODE_SUM]: self._stacking_mode = text else: self._stacking_mode
= STACKING_MODE_MEAN`.  The getter returns the stored value, so this is
also what a set-then-get observes. -/
def set_stacking_mode (text : List Char) : List Char :=
  if py_strip text = STACKING_MODE_MEAN ∨ py_strip text = STACKING_MODE_SUM then text
  else STACKING_MODE_MEAN

/-! ## Folder scanner (`als.io.input.FolderScanner`)

`pause()` calls `_stop_observer()`; `stop()` calls `_stop_observer()`
then `_purge_queue()`.  The observable state is whether the observer is
monitoring plus the contents of the module-level input queue
(`_IMAGE_INPUT_QUEUE`), front first.
-/

structure ScannerState (α : Type) where
  scanning : Bool
  queue : List α
deriving Repr, DecidableEq

/-- `_purge_queue`: `while not _IMAGE_INPUT_QUEUE.empty():
_IMAGE_INPUT_QUEUE.get()`. -/
def purge_queue : List α → List α
  | [] => []
  | _ :: rest => purge_queue rest

/-- `FolderScanner._stop_observer`: halts the monitor, leaves the queue
alone. -/
def stop_observer (s : ScannerState α) : ScannerState α :=
  { s with scanning := false }

/-- `FolderScanner.pause`. -/
def scanner_pause (s : ScannerState α) : ScannerState α :=
  stop_observer s

/-- `FolderScanner.stop`. -/
def scanner_stop (s : ScannerState α) : ScannerState α :=
  let s1 := stop_observer s
  { s1 with queue := purge_queue s1.queue }

/-! ## File-stability poll (`als.io.input.FolderScanner.on_created`)

```python
file_is_incomplete = True
last_file_size = -1
while file_is_incomplete:
    size = QFileInfo(image_path).size()
    if size == last_file_size:
        file_is_incomplete = False
    last_file_size = size
    time.sleep(RETRY_PERIOD)
```

The successive size readings are a function `seq : Nat → Int`
(`QFileInfo.size` returns a non-negative byte count); the loop carries no
timeout, so the embedding takes explicit fuel and `none` means the loop
is still running after `fuel` polls.  `some n` means the loop exited
after reading poll `n` (sizes `seq (n-1)` and `seq n` were equal, or
`n = 0` and `seq 0` equalled the initial `-1` sentinel).
-/

def poll_loop (seq : Nat → Int) : Nat → Int → Nat → Option Nat
  | 0, _, _ => none
  | fuel + 1, last, i =>
    if seq i = last then some i
    else poll_loop seq fuel (seq i) (i + 1)

/-- The whole wait: start from the `-1` sentinel at poll index 0. -/
def wait_until_stable (seq : Nat → Int) (fuel : Nat) : Option Nat :=
  poll_loop seq fuel (-1) 0

/-! ## Image reading (`als.io.input.read_image` and the two readers)

Exceptions are explicit: `_read_fit_image` catches only `OSError`;
`_read_raw_image` catches only `LibRawNonFatalError` and
`LibRawFatalError`; its `assert` statements raise `AssertionError`,
which nothing catches.  `read_image` itself has no `try`, so any
uncaught exception propagates to the watchdog event handler, which has
no `try` around `read_image` either.

The filesystem and the decoder libraries are abstracted into a
`FileEnv`: the path's final component `name`, its extension `suffix`
(with the dot, as `pathlib` reports it), the resolved absolute path, and
what `fits.open` / `rawpy.imread` would deliver for this file — either
content or an exception.
-/

inductive PyExc where
  | osError
  | libRawFatal
  | libRawNonFatal
  | assertionError
  | otherExc
deriving Repr, DecidableEq

/-- What `fits.open` delivers: `fit[0].data`'s shape and the optional
`BAYERPAT` header card. -/
structure FitsContent where
  data_shape : List Nat
  bayerpat : Option String
deriving Repr, DecidableEq

/-- What `rawpy.imread` delivers: the flattened `raw_pattern` tile, the
decoded `color_desc` characters, and the shape of `raw_image_visible`. -/
structure RawContent where
  raw_pattern : List Nat
  color_desc : List Char
  visible_shape : List Nat
deriving Repr, DecidableEq

structure FileEnv where
  name : List Char
  suffix : List Char
  resolved : String
  fitsOpen : Except PyExc FitsContent
  rawOpen : Except PyExc RawContent

/-- `_read_fit_image`: on success build the `Image` and copy `BAYERPAT`
verbatim if present; catch `OSError` as `None`; let any other exception
escape. -/
def read_fit_image (r : Except PyExc FitsContent) : Except PyExc (Option PyImage) :=
  match r with
  | Except.ok c =>
    Except.ok (some ⟨c.data_shape, c.bayerpat, "UNDEFINED", "UNDEFINED"⟩)
  | Except.error e =>
    if e = PyExc.osError then Except.ok none else Except.error e

/-- `_read_raw_image`: on success run the canonicalization loop (a failed
`assert` raises `AssertionError`, uncaught); catch the two LibRaw error
classes as `None`; let any other exception escape. -/
def read_raw_image (r : Except PyExc RawContent) : Except PyExc (Option PyImage) :=
  match r with
  | Except.ok c =>
    match bayer_canonical c.raw_pattern c.color_desc with
    | some pat =>
      Except.ok (some ⟨c.visible_shape, some (String.mk pat), "UNDEFINED", "UNDEFINED"⟩)
    | none => Except.error PyExc.assertionError
  | Except.error e =>
    match e with
    | PyExc.libRawNonFatal => Except.ok none
    | PyExc.libRawFatal => Except.ok none
    | e => Except.error e

/-- `_IGNORED_FILENAME_START_PATTERNS`. -/
def ignored_filename_start_patterns : List (List Char) := [".".data, "~".data, "tmp".data]

/-- The filename filter loop of `read_image`: `path.name.startswith(pattern)`
checked against the final path component only. -/
def is_ignored_name (name : List Char) : Bool :=
  ignored_filename_start_patterns.any (fun p => py_startswith name p)

/-- The extension dispatch of `read_image`:
`path.suffix.lower() in ['.fit', '.fits']`. -/
def is_fits_suffix (suffix : List Char) : Bool :=
  py_lower suffix = ".fit".data || py_lower suffix = ".fits".data

/-- Which decoder `read_image` invoked. -/
inductive ReaderCall where
  | fitsReader
  | rawReader
deriving Repr, DecidableEq

/-- Origin stamping on success:
`image.origin = f"FILE : {file_path_str}"`. -/
def stamp_origin (resolved : String) : Option PyImage → Option PyImage
  | none => none
  | some img => some { img with origin := "FILE : " ++ resolved }

/-- `read_image`: filename filter, extension dispatch, origin stamping.
The second component records which readers were called. -/
def read_image (env : FileEnv) : Except PyExc (Option PyImage) × List ReaderCall :=
  if is_ignored_name env.name then
    (Except.ok none, [])
  else if is_fits_suffix env.suffix then
    match read_fit_image env.fitsOpen with
    | Except.ok img => (Except.ok (stamp_origin env.resolved img), [ReaderCall.fitsReader])
    | Except.error e => (Except.error e, [ReaderCall.fitsReader])
  else
    match read_raw_image env.rawOpen with
    | Except.ok img => (Except.ok (stamp_origin env.resolved img), [ReaderCall.rawReader])
    | Except.error e => (Except.error e, [ReaderCall.rawReader])

/-- `_enqueue_image`: put on the input queue only when an image was
produced. -/
def enqueue_image (img : Option PyImage) (q : List PyImage) : List PyImage :=
  match img with
  | none => q
  | some image => q ++ [image]

/-! ## Helper lemmas -/

lemma purge_queue_eq_nil : ∀ l : List α, purge_queue l = []
  | [] => rfl
  | _ :: rest => purge_queue_eq_nil rest

lemma run_session_append_single (ops : List SessionOp) (op : SessionOp) :
    run_session (ops ++ [op]) = record_session op (run_session ops) := by
  unfold run_session
  rw [List.foldl_append]
  rfl

/-! ## Claim theorems -/

/-- C3: the session starts stopped, and after any sequence of
`record_session_start` / `record_session_stop` / `record_session_pause`
calls, exactly one of the three session predicates is true, namely the
one written by the most recent call — no guard rejects a transition. -/
theorem session_fsm_exactly_one :
    (initFlags.session_is_stopped = true ∧ initFlags.session_is_started = false
      ∧ initFlags.session_is_paused = false)
    ∧ ∀ (ops : List SessionOp) (op : SessionOp),
        run_session (ops ++ [op]) = flags_for op
        ∧ exactly_one (run_session (ops ++ [op])) := by
  refine ⟨⟨rfl, rfl, rfl⟩, fun ops op => ?_⟩
  rw [run_session_append_single]
  cases op with
  | start => exact ⟨rfl, Or.inl ⟨rfl, rfl, rfl⟩⟩
  | stop => exact ⟨rfl, Or.inr (Or.inl ⟨rfl, rfl, rfl⟩)⟩
  | pause => exact ⟨rfl, Or.inr (Or.inr ⟨rfl, rfl, rfl⟩)⟩

/-- Witness for C3 at a concrete call sequence. -/
theorem session_fsm_exactly_one_witness :
    run_session [SessionOp.pause, SessionOp.start] = flags_for SessionOp.start
    ∧ exactly_one (run_session [SessionOp.pause, SessionOp.start]) :=
  session_fsm_exactly_one.2 [SessionOp.pause] SessionOp.start

/-- C4 counterexample: setting `" Sum "` — whose trimmed form is exactly
`"Sum"` — stores and reads back `" Sum "`, not `"Sum"`, because the
setter stores the untrimmed text. -/
theorem stacking_mode_counterexample :
    py_strip " Sum ".data = "Sum".data
    ∧ set_stacking_mode " Sum ".data ≠ "Sum".data := by
  constructor
  · decide
  · decide

/-- C4 (amended): the setter stores the original text `s` whenever
`s.strip()` is `"Sum"` or `"Mean"` (so reading back returns `s` itself,
untrimmed), and stores `"Mean"` for any other value; in particular
setting `"Sum"` reads back `"Sum"` and setting `"bogus"` reads back
`"Mean"`. -/
theorem set_stacking_mode_spec (s : List Char) :
    (py_strip s = STACKING_MODE_SUM ∨ py_strip s = STACKING_MODE_MEAN →
      set_stacking_mode s = s)
    ∧ (py_strip s ≠ STACKING_MODE_SUM ∧ py_strip s ≠ STACKING_MODE_MEAN →
      set_stacking_mode s = STACKING_MODE_MEAN)
    ∧ set_stacking_mode "Sum".data = "Sum".data
    ∧ set_stacking_mode "bogus".data = "Mean".data := by
  refine ⟨fun h => ?_, fun h => ?_, by decide, by decide⟩
  · unfold set_stacking_mode
    rw [if_pos (h.elim Or.inr Or.inl)]
  · unfold set_stacking_mode
    rw [if_neg]
    intro hc
    exact hc.elim h.2 h.1

/-- Witness for C4's amended theorem at the counterexample input. -/
theorem set_stacking_mode_spec_witness :
    set_stacking_mode " Sum ".data = " Sum ".data :=
  (set_stacking_mode_spec " Sum ".data).1 (Or.inl (by decide))

/-- C5: `pause()` leaves the input queue untouched (so its items are
still dequeuable in the same order), `stop()` empties it, and purging
the queue is the only difference between the two operations. -/
theorem pause_keeps_queue_stop_purges (s : ScannerState α) :
    (scanner_pause s).queue = s.queue
    ∧ (scanner_stop s).queue = []
    ∧ scanner_stop s = { scanner_pause s with queue := [] } := by
  refine ⟨rfl, purge_queue_eq_nil s.queue, ?_⟩
  show ScannerState.mk false (purge_queue s.queue) = ScannerState.mk false []
  rw [purge_queue_eq_nil]

/-- Witness for C5 at a concrete scanner state. -/
theorem pause_keeps_queue_stop_purges_witness :
    (scanner_pause (ScannerState.mk true [10, 20, 30])).queue = [10, 20, 30]
    ∧ (scanner_stop (ScannerState.mk true [10, 20, 30])).queue = []
    ∧ scanner_stop (ScannerState.mk true [10, 20, 30])
        = { scanner_pause (ScannerState.mk true [10, 20, 30]) with queue := ([] : List Nat) } :=
  pause_keeps_queue_stop_purges (ScannerState.mk true [10, 20, 30])

lemma foldl_min_le (xs : List Nat) : ∀ x : Nat, xs.foldl Nat.min x ≤ x := by
  induction xs with
  | nil => intro x; exact Nat.le_refl x
  | cons y ys ih =>
    intro x
    exact Nat.le_trans (ih (Nat.min x y)) (Nat.min_le_left x y)

lemma le_foldl_max (xs : List Nat) : ∀ x : Nat, x ≤ xs.foldl Nat.max x := by
  induction xs with
  | nil => intro x; exact Nat.le_refl x
  | cons y ys ih =>
    intro x
    exact Nat.le_trans (Nat.le_max_left x y) (ih (Nat.max x y))

lemma list_min_le_list_max : ∀ l : List Nat, list_min l ≤ list_max l
  | [] => Nat.le_refl 0
  | x :: xs => Nat.le_trans (foldl_min_le xs x) (le_foldl_max xs x)

/-- C10: `width` is the maximum and `height` the minimum of the derived
dimensions, so `width ≥ height` for every image regardless of the
array's row/column orientation; a rank-2 image of shape `(1000, 500)` —
and equally one of shape `(500, 1000)` — reports width 1000 and height
500. -/
theorem width_max_height_min (img : PyImage) :
    img.width = list_max img.dimensions
    ∧ img.height = list_min img.dimensions
    ∧ img.height ≤ img.width
    ∧ (PyImage.mk [1000, 500] none "UNDEFINED" "UNDEFINED").width = 1000
    ∧ (PyImage.mk [1000, 500] none "UNDEFINED" "UNDEFINED").height = 500
    ∧ (PyImage.mk [500, 1000] none "UNDEFINED" "UNDEFINED").width = 1000
    ∧ (PyImage.mk [500, 1000] none "UNDEFINED" "UNDEFINED").height = 500 :=
  ⟨rfl, rfl, list_min_le_list_max _, by decide, by decide, by decide, by decide⟩

/-- Witness for C10 at a concrete rank-3 image. -/
theorem width_max_height_min_witness :
    (PyImage.mk [3, 800, 600] none "UNDEFINED" "UNDEFINED").width
        = list_max (PyImage.mk [3, 800, 600] none "UNDEFINED" "UNDEFINED").dimensions
    ∧ (PyImage.mk [3, 800, 600] none "UNDEFINED" "UNDEFINED").height
        = list_min (PyImage.mk [3, 800, 600] none "UNDEFINED" "UNDEFINED").dimensions
    ∧ (PyImage.mk [3, 800, 600] none "UNDEFINED" "UNDEFINED").height
        ≤ (PyImage.mk [3, 800, 600] none "UNDEFINED" "UNDEFINED").width
    ∧ (PyImage.mk [1000, 500] none "UNDEFINED" "UNDEFINED").width = 1000
    ∧ (PyImage.mk [1000, 500] none "UNDEFINED" "UNDEFINED").height = 500
    ∧ (PyImage.mk [500, 1000] none "UNDEFINED" "UNDEFINED").width = 1000
    ∧ (PyImage.mk [500, 1000] none "UNDEFINED" "UNDEFINED").height = 500 :=
  width_max_height_min (PyImage.mk [3, 800, 600] none "UNDEFINED" "UNDEFINED")

/-- C9: over the data model's well-formed ranks (2 or 3),
`needs_debayering` holds iff a bayer pattern is set and the rank is
exactly 2, and `is_color` holds iff the rank exceeds 2. -/
theorem needs_debayering_is_color_spec (img : PyImage)
    (h : img.ndim = 2 ∨ img.ndim = 3) :
    (img.needs_debayering = true
      ↔ img.bayer_pattern.isSome = true ∧ img.ndim = 2)
    ∧ (img.is_color = true ↔ 2 < img.ndim) := by
  constructor
  · simp only [PyImage.needs_debayering, Bool.and_eq_true, decide_eq_true_eq]
    constructor
    · rintro ⟨h1, h2⟩
      exact ⟨h1, by omega⟩
    · rintro ⟨h1, h2⟩
      exact ⟨h1, by omega⟩
  · simp only [PyImage.is_color, gt_iff_lt, decide_eq_true_eq]

/-- Witness for C9 at a concrete rank-2 mosaic image. -/
theorem needs_debayering_is_color_spec_witness :
    ((PyImage.mk [4, 6] (some "RGGB") "UNDEFINED" "UNDEFINED").needs_debayering = true
      ↔ (PyImage.mk [4, 6] (some "RGGB") "UNDEFINED" "UNDEFINED").bayer_pattern.isSome = true
        ∧ (PyImage.mk [4, 6] (some "RGGB") "UNDEFINED" "UNDEFINED").ndim = 2)
    ∧ ((PyImage.mk [4, 6] (some "RGGB") "UNDEFINED" "UNDEFINED").is_color = true
      ↔ 2 < (PyImage.mk [4, 6] (some "RGGB") "UNDEFINED" "UNDEFINED").ndim) :=
  needs_debayering_is_color_spec (PyImage.mk [4, 6] (some "RGGB") "UNDEFINED" "UNDEFINED")
    (Or.inl rfl)

/-- C8: any path whose final component starts with `"."`, `"~"` or
`"tmp"` makes `read_image` return no image without invoking either
reader. -/
theorem ignored_names_short_circuit (env : FileEnv)
    (h : py_startswith env.name ".".data = true
      ∨ py_startswith env.name "~".data = true
      ∨ py_startswith env.name "tmp".data = true) :
    read_image env = (Except.ok none, []) := by
  have hi : is_ignored_name env.name = true := by
    unfold is_ignored_name ignored_filename_start_patterns
    simp only [List.any_cons, List.any_nil, Bool.or_eq_true]
    rcases h with h | h | h
    · exact Or.inl h
    · exact Or.inr (Or.inl h)
    · exact Or.inr (Or.inr (Or.inl h))
  simp [read_image, hi]

/-- Witness for C8 on a hidden FITS file: neither reader runs even
though both decoders stand ready to deliver. -/
theorem ignored_names_short_circuit_witness :
    read_image (FileEnv.mk ".hidden.fit".data ".fit".data "/scan/.hidden.fit"
        (Except.ok (FitsContent.mk [2, 2] none))
        (Except.ok (RawContent.mk [0, 1, 2, 3] "RGGB".data [2, 2])))
      = (Except.ok none, []) :=
  ignored_names_short_circuit
    (FileEnv.mk ".hidden.fit".data ".fit".data "/scan/.hidden.fit"
      (Except.ok (FitsContent.mk [2, 2] none))
      (Except.ok (RawContent.mk [0, 1, 2, 3] "RGGB".data [2, 2])))
    (Or.inl (by decide))

lemma get?_eq_some_getD (l : List Char) (i : Nat) (h : i < l.length) :
    l.get? i = some (l.getD i ' ') := by
  rw [List.getD_eq_get?]
  cases hq : l.get? i with
  | none =>
    rw [List.get?_eq_none] at hq
    omega
  | some c => rfl

lemma bayer_canonical_go_spec (bound : Nat) (colors : List Char) :
    ∀ l : List Nat, (∀ idx ∈ l, idx < bound ∧ idx < colors.length) →
      bayer_canonical_go bound colors l
        = some (l.map (fun idx => colors.getD idx ' ')) := by
  intro l
  induction l with
  | nil => intro _; rfl
  | cons idx rest ih =>
    intro h
    have h1 := h idx (List.mem_cons_self idx rest)
    have hrest := ih (fun j hj => h j (List.mem_cons_of_mem idx hj))
    unfold bayer_canonical_go
    rw [if_pos h1.1, get?_eq_some_getD colors idx h1.2, hrest]
    rfl

lemma bayer_canonical_identity (colors : List Char) (hlen : colors.length = 4) :
    bayer_canonical [0, 1, 2, 3] colors = some colors := by
  match colors, hlen with
  | [a, b, c, d], _ => rfl

/-- C1: for `indices` a permutation of 0..3 and `colors` of length 4,
the RAW-path canonicalization succeeds (no assertion fires) and returns
the 4-character pattern whose i-th character is `colors[indices[i]]`; in
particular `[0, 1, 3, 2]` with `"RGBG"` gives `"RGGB"`, and identity
indices return `colors` itself. -/
theorem bayer_canonicalization_spec (indices : List Nat) (colors : List Char)
    (hperm : indices.Perm [0, 1, 2, 3]) (hlen : colors.length = 4) :
    bayer_canonical indices colors
        = some (indices.map (fun idx => colors.getD idx ' '))
    ∧ (indices.map (fun idx => colors.getD idx ' ')).length = 4
    ∧ (∀ i : Nat, (indices.map (fun idx => colors.getD idx ' ')).get? i
        = (indices.get? i).map (fun idx => colors.getD idx ' '))
    ∧ bayer_canonical [0, 1, 3, 2] "RGBG".data = some "RGGB".data
    ∧ bayer_canonical [0, 1, 2, 3] colors = some colors := by
  have hlen_i : indices.length = 4 := by
    rw [hperm.length_eq]
    rfl
  have hmem : ∀ idx ∈ indices, idx < 4 := by
    intro idx hm
    have hx : idx ∈ [0, 1, 2, 3] := hperm.mem_iff.mp hm
    simp only [List.mem_cons, List.mem_singleton, List.not_mem_nil, or_false] at hx
    rcases hx with rfl | rfl | rfl | rfl <;> decide
  refine ⟨?_, ?_, ?_, by decide, bayer_canonical_identity colors hlen⟩
  · unfold bayer_canonical
    rw [if_pos (hlen_i.trans hlen.symm)]
    refine bayer_canonical_go_spec indices.length colors indices (fun idx hm => ?_)
    have := hmem idx hm
    constructor
    · omega
    · omega
  · rw [List.length_map, hlen_i]
  · intro i
    exact List.get?_map (fun idx => colors.getD idx ' ') indices i

/-- Witness for C1 at the sensor-native tile `[0, 1, 3, 2]` with colors
`"RGBG"`. -/
theorem bayer_canonicalization_spec_witness :
    bayer_canonical [0, 1, 3, 2] "RGBG".data
        = some ([0, 1, 3, 2].map (fun idx => "RGBG".data.getD idx ' '))
    ∧ ([0, 1, 3, 2].map (fun idx => "RGBG".data.getD idx ' ')).length = 4
    ∧ (∀ i : Nat, (([0, 1, 3, 2] : List Nat).map (fun idx => "RGBG".data.getD idx ' ')).get? i
        = (([0, 1, 3, 2] : List Nat).get? i).map (fun idx => "RGBG".data.getD idx ' '))
    ∧ bayer_canonical [0, 1, 3, 2] "RGBG".data = some "RGGB".data
    ∧ bayer_canonical [0, 1, 2, 3] "RGBG".data = some "RGBG".data :=
  bayer_canonicalization_spec [0, 1, 3, 2] "RGBG".data (by decide) (by decide)

lemma poll_loop_none_of_never_stable (seq : Nat → Int) :
    ∀ (fuel : Nat) (i : Nat) (last : Int), seq i ≠ last →
      (∀ m, seq (m + 1) ≠ seq m) → poll_loop seq fuel last i = none := by
  intro fuel
  induction fuel with
  | zero => intro i last _ _; rfl
  | succ f ih =>
    intro i last hne hstep
    unfold poll_loop
    rw [if_neg hne]
    exact ih (i + 1) (seq i) (hstep i) hstep

lemma poll_loop_some_spec (seq : Nat → Int) :
    ∀ (fuel : Nat) (last : Int) (i n : Nat), poll_loop seq fuel last i = some n →
      (n = i ∧ seq i = last)
      ∨ (i < n ∧ seq n = seq (n - 1) ∧ seq i ≠ last
          ∧ ∀ m, i < m → m < n → seq m ≠ seq (m - 1)) := by
  intro fuel
  induction fuel with
  | zero =>
    intro last i n h
    exact absurd h (by simp [poll_loop])
  | succ f ih =>
    intro last i n h
    unfold poll_loop at h
    by_cases hc : seq i = last
    · rw [if_pos hc] at h
      have hn : i = n := by injection h
      exact Or.inl ⟨hn.symm, hc⟩
    · rw [if_neg hc] at h
      rcases ih (seq i) (i + 1) n h with ⟨hn, heq⟩ | ⟨hlt, hstab, hne1, hmin⟩
      · refine Or.inr ⟨by omega, ?_, hc, fun m hm1 hm2 => by omega⟩
        rw [hn]
        simpa using heq
      · refine Or.inr ⟨by omega, hstab, hc, fun m hm1 hm2 => ?_⟩
        by_cases hm : m = i + 1
        · subst hm
          simpa using hne1
        · exact hmin m (by omega) hm2

/-- C7: for any sequence of file-size readings, `on_created`'s wait loop
finishes — and decoding is attempted — exactly when two consecutive
polls return equal sizes, at the first such pair; a size sequence with no
two equal consecutive readings never terminates the loop, whatever the
fuel, because no timeout bounds it. -/
theorem stability_poll_spec (seq : Nat → Int) (hpos : ∀ i, 0 ≤ seq i) :
    (∀ fuel n, wait_until_stable seq fuel = some n →
        1 ≤ n ∧ seq n = seq (n - 1)
        ∧ ∀ m, 1 ≤ m → m < n → seq m ≠ seq (m - 1))
    ∧ ((∀ i, seq (i + 1) ≠ seq i) → ∀ fuel, wait_until_stable seq fuel = none) := by
  have h0 : seq 0 ≠ -1 := by
    have := hpos 0
    omega
  constructor
  · intro fuel n h
    rcases poll_loop_some_spec seq fuel (-1) 0 n h with ⟨hn, heq⟩ | ⟨hlt, hstab, _, hmin⟩
    · exact absurd heq h0
    · exact ⟨hlt, hstab, fun m h1 h2 => hmin m h1 h2⟩
  · intro hstep fuel
    exact poll_loop_none_of_never_stable seq fuel 0 (-1) h0 hstep

/-- Witness for C7 on a strictly growing file: the loop never exits. -/
theorem stability_poll_spec_witness :
    (∀ fuel n, wait_until_stable (fun i => (i : Int)) fuel = some n →
        1 ≤ n ∧ ((n : Nat) : Int) = ((n - 1 : Nat) : Int)
        ∧ ∀ m, 1 ≤ m → m < n → ((m : Nat) : Int) ≠ ((m - 1 : Nat) : Int))
    ∧ ((∀ i : Nat, ((i + 1 : Nat) : Int) ≠ ((i : Nat) : Int)) →
        ∀ fuel, wait_until_stable (fun i => (i : Int)) fuel = none) :=
  stability_poll_spec (fun i => (i : Int)) (fun i => Int.natCast_nonneg i)

lemma got_values_cons_none (st : QStep α) (tr : List (QStep α)) (h : st.got = none) :
    got_values (st :: tr) = got_values tr := by
  simp [got_values, List.filterMap_cons, h]

lemma got_values_cons_some (st : QStep α) (tr : List (QStep α)) (x : α)
    (h : st.got = some x) :
    got_values (st :: tr) = x :: got_values tr := by
  simp [got_values, List.filterMap_cons, h]

lemma run_invariant : ∀ (ops : List (QOp α)) (q : List α),
    got_values (run_ops q ops) ++ run_final q ops = q ++ put_values ops := by
  intro ops
  induction ops with
  | nil =>
    intro q
    simp [run_ops, run_final, got_values, put_values]
  | cons op rest ih =>
    intro q
    cases op with
    | put x =>
      rw [show run_ops q (QOp.put x :: rest)
            = apply_op q (QOp.put x) :: run_ops (q ++ [x]) rest from rfl]
      rw [got_values_cons_none _ _ rfl]
      rw [show run_final q (QOp.put x :: rest) = run_final (q ++ [x]) rest from rfl]
      rw [ih (q ++ [x])]
      rw [show put_values (QOp.put x :: rest) = x :: put_values rest from rfl]
      simp
    | getNowait =>
      cases q with
      | nil =>
        rw [show run_ops ([] : List α) (QOp.getNowait :: rest)
              = apply_op [] QOp.getNowait :: run_ops [] rest from rfl]
        rw [got_values_cons_none _ _ rfl]
        rw [show run_final ([] : List α) (QOp.getNowait :: rest) = run_final [] rest from rfl]
        rw [ih []]
        rfl
      | cons y ys =>
        rw [show run_ops (y :: ys) (QOp.getNowait :: rest)
              = apply_op (y :: ys) QOp.getNowait :: run_ops ys rest from rfl]
        rw [got_values_cons_some _ _ y rfl]
        rw [show run_final (y :: ys) (QOp.getNowait :: rest) = run_final ys rest from rfl]
        rw [show put_values (QOp.getNowait :: rest) = put_values rest from rfl]
        rw [List.cons_append, ih ys]
        rfl

lemma apply_op_step_spec (q : List α) (op : QOp α) :
    step_notification_spec (apply_op q op) := by
  cases op with
  | put x =>
    cases q <;> simp [step_notification_spec, apply_op, q_put, qsize]
  | getNowait =>
    cases q <;> simp [step_notification_spec, apply_op, q_get, qsize]

lemma run_ops_step_spec : ∀ (ops : List (QOp α)) (q : List α) (st : QStep α),
    st ∈ run_ops q ops → step_notification_spec st := by
  intro ops
  induction ops with
  | nil =>
    intro q st h
    exact absurd h (List.not_mem_nil st)
  | cons op rest ih =>
    intro q st h
    rw [show run_ops q (op :: rest)
          = apply_op q op :: run_ops (apply_op q op).post rest from rfl] at h
    rcases List.mem_cons.mp h with rfl | h2
    · exact apply_op_step_spec q op
    · exact ih _ st h2

/-- C2: running any sequence of enqueues and dequeues from an empty
signaling queue, the dequeued values are a prefix of the enqueued values
(FIFO order), and every step obeys the notification contract: one
`pushed` signal per enqueue and one `popped` signal per successful
dequeue, each carrying the queue's new size, with nothing emitted by a
failed dequeue. -/
theorem signaling_queue_fifo_notifications (α : Type) (ops : List (QOp α)) :
    (∃ rest, got_values (run_ops ([] : List α) ops) ++ rest = put_values ops)
    ∧ ∀ st ∈ run_ops ([] : List α) ops, step_notification_spec st := by
  constructor
  · refine ⟨run_final [] ops, ?_⟩
    rw [run_invariant ops []]
    rfl
  · intro st h
    exact run_ops_step_spec ops [] st h

/-- Witness for C2 at a concrete operation sequence. -/
theorem signaling_queue_fifo_notifications_witness :
    (∃ rest, got_values (run_ops ([] : List Nat) [QOp.put 5, QOp.put 6, QOp.getNowait]) ++ rest
        = put_values [QOp.put 5, QOp.put 6, QOp.getNowait])
    ∧ ∀ st ∈ run_ops ([] : List Nat) [QOp.put 5, QOp.put 6, QOp.getNowait],
        step_notification_spec st :=
  signaling_queue_fifo_notifications Nat [QOp.put 5, QOp.put 6, QOp.getNowait]

/-- A RAW file whose driver delivers a mosaic tile with an out-of-range
index: the canonicalization `assert` fires and nothing catches the
`AssertionError`. -/
def assertEnv : FileEnv :=
  FileEnv.mk "bad.cr2".data ".cr2".data "/scan/bad.cr2"
    (Except.error PyExc.otherExc)
    (Except.ok (RawContent.mk [0, 1, 2, 4] "RGBG".data [100, 200]))

/-- C6 counterexample: a decode failure that is neither a FITS I/O error
nor a LibRaw error — the RAW path's mosaic-index assertion — makes
`read_image` raise instead of returning no image, so the exception
escapes the watcher's event handling. -/
theorem decode_failure_counterexample :
    read_image assertEnv = (Except.error PyExc.assertionError, [ReaderCall.rawReader])
    ∧ (read_image assertEnv).1 ≠ Except.ok (none : Option PyImage) := by
  refine ⟨rfl, ?_⟩
  intro h
  rw [show (read_image assertEnv).1 = Except.error PyExc.assertionError from rfl] at h
  exact Except.noConfusion h

/-- C6 (amended): for the failure classes the readers actually catch — a
FITS container I/O error (`OSError`), or a RAW driver fatal or non-fatal
error — `read_image` returns no image, nothing is enqueued, and no
exception propagates; other decode failures, such as the RAW mosaic
assertion, escape as exceptions. -/
theorem decode_failure_yields_none (env : FileEnv) (q : List PyImage) :
    (is_ignored_name env.name = false → is_fits_suffix env.suffix = true →
      env.fitsOpen = Except.error PyExc.osError →
      read_image env = (Except.ok none, [ReaderCall.fitsReader])
      ∧ enqueue_image none q = q)
    ∧ (is_ignored_name env.name = false → is_fits_suffix env.suffix = false →
      (env.rawOpen = Except.error PyExc.libRawFatal
        ∨ env.rawOpen = Except.error PyExc.libRawNonFatal) →
      read_image env = (Except.ok none, [ReaderCall.rawReader])
      ∧ enqueue_image none q = q) := by
  constructor
  · intro hig hfits hopen
    refine ⟨?_, rfl⟩
    simp [read_image, hig, hfits, hopen, read_fit_image, stamp_origin]
  · intro hig hfits hopen
    refine ⟨?_, rfl⟩
    rcases hopen with hopen | hopen <;>
      simp [read_image, hig, hfits, hopen, read_raw_image, stamp_origin]

/-- Witness for C6's amended theorem on a FITS file whose container open
raises `OSError`. -/
theorem decode_failure_yields_none_witness :
    read_image (FileEnv.mk "m42.fit".data ".fit".data "/scan/m42.fit"
        (Except.error PyExc.osError)
        (Except.ok (RawContent.mk [0, 1, 2, 3] "RGGB".data [2, 2])))
      = (Except.ok none, [ReaderCall.fitsReader])
    ∧ enqueue_image none ([] : List PyImage) = [] :=
  (decode_failure_yields_none
      (FileEnv.mk "m42.fit".data ".fit".data "/scan/m42.fit"
        (Except.error PyExc.osError)
        (Except.ok (RawContent.mk [0, 1, 2, 3] "RGGB".data [2, 2]))) []).1
    (by decide) (by decide) rfl

end ALS
